import Mathlib

/-!
Verification of the expression-evaluation and equation-solving engine
(`CalculatorEngine.ts`, `SolverEngine.ts`) of the graphing-calculator
subsystem.

Numbers are modelled by `F`: an idealized IEEE-style value that is either an
exact rational, `nan`, or a signed infinity.  Arithmetic on finite values is
exact rational arithmetic (the idealization of float64); the special values
follow the JavaScript semantics the solver code depends on (`NaN`
propagation, comparisons with `NaN` being false, division by zero producing
infinities, `0 * Infinity = NaN`, and so on).

External libraries (mathjs, nerdamer) are not part of the repository; they
are modelled by abstract backends whose observable interface matches what
the source code uses.  Everything written in the two source files themselves
(preprocessing, the numeric solvers, orchestration, result records) is
embedded directly.
-/

/-- Idealized float64 value: an exact rational, `NaN`, `+Infinity` or
`-Infinity`. -/
inductive F where
  | fin : ℚ → F
  | nan : F
  | inf : F
  | ninf : F
deriving DecidableEq, Repr

namespace F

/-- Zero as a float, `0`. -/
def zero : F := fin 0

/-- JavaScript `isFinite`. -/
def isFinite : F → Bool
  | fin _ => true
  | _ => false

/-- Negation (JS unary minus). -/
def neg : F → F
  | fin q => fin (-q)
  | nan => nan
  | inf => ninf
  | ninf => inf

/-- Addition with IEEE special-value rules (`∞ + -∞ = NaN`). -/
def add : F → F → F
  | nan, _ => nan
  | _, nan => nan
  | fin a, fin b => fin (a + b)
  | fin _, inf => inf
  | fin _, ninf => ninf
  | inf, fin _ => inf
  | ninf, fin _ => ninf
  | inf, inf => inf
  | ninf, ninf => ninf
  | inf, ninf => nan
  | ninf, inf => nan

/-- Subtraction, `a - b = a + (-b)` as in IEEE. -/
def sub (a b : F) : F := add a (neg b)

/-- Multiplication with IEEE special-value rules (`0 * ∞ = NaN`). -/
def mul : F → F → F
  | nan, _ => nan
  | _, nan => nan
  | fin a, fin b => fin (a * b)
  | fin a, inf => if 0 < a then inf else if a < 0 then ninf else nan
  | fin a, ninf => if 0 < a then ninf else if a < 0 then inf else nan
  | inf, fin a => if 0 < a then inf else if a < 0 then ninf else nan
  | ninf, fin a => if 0 < a then ninf else if a < 0 then inf else nan
  | inf, inf => inf
  | ninf, ninf => inf
  | inf, ninf => ninf
  | ninf, inf => ninf

/-- Division with the JS rules: finite / 0 is a signed infinity (`0/0 = NaN`),
finite / ∞ is 0, ∞ / ∞ is `NaN`.  (The model has no signed zero.) -/
def div : F → F → F
  | nan, _ => nan
  | _, nan => nan
  | fin a, fin b =>
      if b = 0 then (if a = 0 then nan else if 0 < a then inf else ninf)
      else fin (a / b)
  | fin _, inf => fin 0
  | fin _, ninf => fin 0
  | inf, fin a => if 0 ≤ a then inf else ninf
  | ninf, fin a => if 0 ≤ a then ninf else inf
  | inf, _ => nan
  | ninf, _ => nan

/-- Strict less-than; any comparison involving `NaN` is false. -/
def lt : F → F → Bool
  | nan, _ => false
  | _, nan => false
  | fin a, fin b => decide (a < b)
  | fin _, inf => true
  | fin _, ninf => false
  | inf, _ => false
  | ninf, ninf => false
  | ninf, _ => true

/-- Strict greater-than, `a > b ↔ b < a`. -/
def gt (a b : F) : Bool := lt b a

/-- Non-strict less-or-equal; any comparison involving `NaN` is false. -/
def le : F → F → Bool
  | nan, _ => false
  | _, nan => false
  | fin a, fin b => decide (a ≤ b)
  | fin _, inf => true
  | fin _, ninf => false
  | inf, inf => true
  | inf, _ => false
  | ninf, _ => true

/-- JavaScript `Math.abs`. -/
def abs : F → F
  | fin q => fin |q|
  | nan => nan
  | inf => inf
  | ninf => inf

end F

/-- Powers of ten, `10 ^ n`, over the rationals (natural exponent). -/
def pow10 (n : ℕ) : ℚ := 10 ^ n

/-- Search upward for the smallest `n' ≥ n` with `q ≤ 10 ^ n'` (fuel-bounded,
fuel is always chosen large enough). -/
def clogUp : ℕ → ℕ → ℚ → ℤ
  | 0, n, _ => (n : ℤ)
  | fuel + 1, n, q => if q ≤ pow10 n then (n : ℤ) else clogUp fuel (n + 1) q

/-- Search upward for the greatest `m' ≥ m` with `10 ^ m' ≤ r`, returning its
negation (fuel-bounded, fuel is always chosen large enough). -/
def clogDown : ℕ → ℕ → ℚ → ℤ
  | 0, m, _ => -(m : ℤ)
  | fuel + 1, m, r => if pow10 (m + 1) ≤ r then clogDown fuel (m + 1) r else -(m : ℤ)

/-- Ceiling log base ten, `⌈log10 q⌉`, for a positive rational `q`: the smallest integer `z` with
`q ≤ 10 ^ z`.  This is the exact-arithmetic reading of the source's
`Math.ceil(Math.log10(q))`.  For `q > 1` we search up from `0`; for
`0 < q < 1` we use `⌈log10 q⌉ = -⌊log10 (1/q)⌋` and search the greatest `m`
with `10 ^ m ≤ 1/q`.  (Values `q ≤ 0` never reach this function.) -/
def ratClog10 (q : ℚ) : ℤ :=
  if 1 < q then clogUp (q.num.natAbs + 1) 0 q
  else if q < 1 then clogDown (q.den + 1) 0 (1 / q)
  else 0

/-- JavaScript `Math.round`: round half up, `round x = ⌊x + 1/2⌋`. -/
def jsRound (q : ℚ) : ℚ := ((q + 1 / 2).floor : ℚ)

/-- Rounding to significant figures, `roundToSignificant` (SolverEngine.ts lines 310-316):
```
if (num === 0) return 0;
const d = Math.ceil(Math.log10(Math.abs(num)));
const power = figures - d;
const magnitude = Math.pow(10, power);
return Math.round(num * magnitude) / magnitude;
```
On `NaN` and the infinities the JS chain of operations yields `NaN`
(`log10(∞) = ∞`, `10 ^ (figures - ∞) = 0`, `∞ * 0 = NaN`), so those cases
return `nan` directly. -/
def roundToSignificant (num : F) (figures : ℕ) : F :=
  match num with
  | F.fin q =>
      if q = 0 then F.fin 0
      else
        let d : ℤ := ratClog10 |q|
        let power : ℤ := (figures : ℤ) - d
        let magnitude : ℚ := (10 : ℚ) ^ power
        F.fin (jsRound (q * magnitude) / magnitude)
  | _ => F.nan

/-! ## The expression preprocessor (CalculatorEngine.ts lines 166-195)

`preprocessExpression` is a chain of eleven JavaScript `String.replace`
calls with global regexes.  Each one is embedded as a left-to-right scanner
over the character list, with the same non-overlapping leftmost-match
semantics as `replace(/…/g, …)`: after a match the scan resumes at the first
character past the match. -/

/-- JS regex `\w` (word character): `[A-Za-z0-9_]`. -/
def isWordChar (c : Char) : Bool := c.isAlphanum || c = '_'

/-- Character class `[a-zA-Z(]` used by the implicit-multiplication rules. -/
def isAlphaParen (c : Char) : Bool := c.isAlpha || c = '('

/-- Is the previous character (if any) a word character?  `none` stands for
the start of the string, which is a word boundary. -/
def wordOpt : Option Char → Bool
  | none => false
  | some c => isWordChar c

/-- Is the head of the remaining input a word character?  End of string is a
word boundary. -/
def wordHead : List Char → Bool
  | [] => false
  | c :: _ => isWordChar c

/-- The call `replace(/a/g, b)` for single characters `a`, `b`: a character map. -/
def replaceChar (a b : Char) (l : List Char) : List Char :=
  l.map fun c => if c = a then b else c

/-- The call `replace(/\btau\b/g, '(2*pi)')`.  `prev` is the character just before the
current scan position (`none` at the start). -/
def replTau (prev : Option Char) : List Char → List Char
  | 't' :: 'a' :: 'u' :: rest =>
      if wordOpt prev || wordHead rest then
        't' :: replTau (some 't') ('a' :: 'u' :: rest)
      else
        '(' :: '2' :: '*' :: 'p' :: 'i' :: ')' :: replTau (some 'u') rest
  | c :: cs => c :: replTau (some c) cs
  | [] => []

/-- The call `replace(/\bln\(/g, 'log(')`. -/
def replLn (prev : Option Char) : List Char → List Char
  | 'l' :: 'n' :: '(' :: rest =>
      if wordOpt prev then
        'l' :: replLn (some 'l') ('n' :: '(' :: rest)
      else
        'l' :: 'o' :: 'g' :: '(' :: replLn (some '(') rest
  | c :: cs => c :: replLn (some c) cs
  | [] => []

/-- The call `replace(/\blog10\(/g, 'log10(')` — the replacement text equals the
matched text, so this pass rewrites each match to itself. -/
def replLog10 (prev : Option Char) : List Char → List Char
  | 'l' :: 'o' :: 'g' :: '1' :: '0' :: '(' :: rest =>
      if wordOpt prev then
        'l' :: replLog10 (some 'l') ('o' :: 'g' :: '1' :: '0' :: '(' :: rest)
      else
        'l' :: 'o' :: 'g' :: '1' :: '0' :: '(' :: replLog10 (some '(') rest
  | c :: cs => c :: replLog10 (some c) cs
  | [] => []

/-- The call `replace(/(p1)(p2)/g, '$1*$2')` for single-character classes `p1`, `p2`:
inserts a `*` between each (non-overlapping, leftmost) adjacent pair. -/
def insMul (p1 p2 : Char → Bool) : List Char → List Char
  | a :: b :: rest =>
      if p1 a && p2 b then a :: '*' :: b :: insMul p1 p2 rest
      else a :: insMul p1 p2 (b :: rest)
  | l => l

/-- Scanner for `replace(/(\d+)!/g, 'factorial($1)')`.  `run` holds the
reversed digit run collected so far (empty when not inside a run). -/
def replFactAux (run : List Char) : List Char → List Char
  | [] => run.reverse
  | c :: cs =>
      if c.isDigit then replFactAux (c :: run) cs
      else if c = '!' then
        match run with
        | [] => '!' :: replFactAux [] cs
        | _ =>
            ('f' :: 'a' :: 'c' :: 't' :: 'o' :: 'r' :: 'i' :: 'a' :: 'l' :: '(' :: run.reverse)
              ++ ')' :: replFactAux [] cs
      else run.reverse ++ c :: replFactAux [] cs

/-- The call `replace(/(\d+)!/g, 'factorial($1)')`. -/
def replFact (l : List Char) : List Char := replFactAux [] l

/-- The preprocessor `preprocessExpression` (CalculatorEngine.ts lines 166-195): the eleven
replacements in source order — display glyphs `× ÷ −`, the no-op `^ → ^`,
`tau → (2*pi)`, `ln( → log(`, the self-replacement `log10( → log10(`,
the three implicit-multiplication insertions, and postfix factorial. -/
def preprocessExpression (expr : String) : String :=
  let s1 := replaceChar '×' '*' expr.data
  let s2 := replaceChar '÷' '/' s1
  let s3 := replaceChar '−' '-' s2
  let s4 := replaceChar '^' '^' s3
  let s5 := replTau none s4
  let s6 := replLn none s5
  let s7 := replLog10 none s6
  let s8 := insMul Char.isDigit isAlphaParen s7
  let s9 := insMul (fun c => c = ')') Char.isDigit s8
  let s10 := insMul (fun c => c = ')') isAlphaParen s9
  String.mk (replFact s10)

/-! ## Equation normalization shared by `solveSymbolic` and `solve`
(SolverEngine.ts lines 54-59 and 284-288, textually identical code). -/

/-- JavaScript `String.prototype.split('=')` on a character list: splits at
every `'='`, always returning at least one (possibly empty) segment. -/
def splitEq : List Char → List (List Char)
  | [] => [[]]
  | c :: cs =>
      if c = '=' then [] :: splitEq cs
      else
        match splitEq cs with
        | [] => [[c]]
        | s :: ss => (c :: s) :: ss

/-- ASCII whitespace, modelling the characters `String.prototype.trim`
removes. -/
def isJsSpace (c : Char) : Bool := c = ' ' || c = '\t' || c = '\n' || c = '\r'

/-- JavaScript `String.prototype.trim`. -/
def jsTrim (l : List Char) : List Char :=
  ((l.dropWhile isJsSpace).reverse.dropWhile isJsSpace).reverse

/-- The zero-form rewriting both `solve` and `solveSymbolic` perform:
```
let expr = equation;
if (equation.includes('=')) {
  const [left, right] = equation.split('=');
  expr = `(${left.trim()}) - (${right.trim()})`;
}
```
The array destructuring takes only the first two segments of the split. -/
def zeroForm (equation : String) : String :=
  if equation.data.contains '=' then
    let parts := splitEq equation.data
    let left := parts.getD 0 []
    let right := parts.getD 1 []
    String.mk (('(' :: jsTrim left) ++ (')' :: ' ' :: '-' :: ' ' :: '(' :: jsTrim right) ++ [')'])
  else equation

/-! ## The calculator engine (CalculatorEngine.ts)

mathjs is an external library; a compiled mathjs expression is modelled by
the outcome of its `evaluate` method on a scope: either a thrown error, a
plain JS number, or a non-number mathjs value together with what
`math.number` does to it (a number or a thrown conversion error). -/

/-- A variable scope, `{ x: …, y: … }`: an association list of bindings. -/
def Scope : Type := List (String × F)

/-- Outcome of `compiled.evaluate(scope)` when it does not throw: either a
plain JS number (`typeof result === 'number'`), or some other mathjs value
carrying the outcome of the `math.number(result)` conversion the source
applies to it. -/
inductive EvalOut where
  | num : F → EvalOut
  | nonnum : Except String F → EvalOut

/-- Modelled from the spec: a compiled mathjs expression (the return value of
`math.compile`, external to the repository), observed through the only
method the source uses, `evaluate(scope)`, which may throw. -/
structure CompiledExpression where
  evaluate : Scope → Except String EvalOut

/-- Evaluation of a compiled expression, `evaluateCompiled` (CalculatorEngine.ts lines 151-161):
```
try {
  const result = compiled.evaluate(scope);
  return typeof result === 'number' ? result : math.number(result);
} catch {
  return NaN;
}
``` -/
def evaluateCompiled (compiled : CompiledExpression) (scope : Scope) : F :=
  match compiled.evaluate scope with
  | .error _ => F.nan
  | .ok (.num x) => x
  | .ok (.nonnum conv) =>
      match conv with
      | .error _ => F.nan
      | .ok x => x

/-- Modelled from the spec: `math.compile` of the external mathjs instance
(the Precision Arithmetic Backend), which takes the preprocessed source text
and either throws a parse error or yields a compiled expression. -/
def MathCompile : Type := String → Except String CompiledExpression

/-- Compilation, `compile` (CalculatorEngine.ts lines 138-141): preprocess, then hand the
text to mathjs.  A thrown parse failure is the `.error` case. -/
def compile (mc : MathCompile) (expression : String) : Except String CompiledExpression :=
  mc (preprocessExpression expression)

/-- The record `CalculationResult` (CalculatorEngine.ts lines 90-95). -/
structure CalculationResult where
  value : String
  numericValue : F
  isComplex : Bool
  error : Option String
deriving DecidableEq

/-- Modelled from the spec: the parts of the external mathjs instance used by
`evaluate` — `math.evaluate` on the preprocessed text (may throw),
`formatResult`'s formatting of the raw value (its internals call
`math.typeOf`/`math.number` and may throw), and the `math.typeOf(result) ===
'Complex'` test. -/
structure MathBackend where
  evalRaw : String → Scope → Except String EvalOut
  fmtRaw : EvalOut → Except String String
  isComplexRaw : EvalOut → Bool

/-- The `numericValue` computation of `evaluate`:
`typeof result === 'number' ? result : math.number(result)`, which throws
when the conversion does. -/
def numValue : EvalOut → Except String F
  | .num x => .ok x
  | .nonnum conv => conv

/-- Safe evaluation, `evaluate` (CalculatorEngine.ts lines 106-133): preprocess, evaluate,
format; any throw anywhere in the `try` block is converted into the error
record `{ value: 'Error', numericValue: NaN, isComplex: false, error }`. -/
def evaluate (B : MathBackend) (expression : String) (scope : Scope) : CalculationResult :=
  match B.evalRaw (preprocessExpression expression) scope with
  | .error e => { value := "Error", numericValue := F.nan, isComplex := false, error := some e }
  | .ok result =>
      match B.fmtRaw result with
      | .error e => { value := "Error", numericValue := F.nan, isComplex := false, error := some e }
      | .ok formatted =>
          match numValue result with
          | .error e =>
              { value := "Error", numericValue := F.nan, isComplex := false, error := some e }
          | .ok n =>
              { value := formatted, numericValue := n,
                isComplex := B.isComplexRaw result, error := none }

/-! ## The solver engine (SolverEngine.ts) -/

/-- The `method` field of `SolverResult`. -/
inductive Method where
  | symbolic
  | newton
  | bisection
  | combined
deriving DecidableEq, Repr

/-- The record `SolverResult` (SolverEngine.ts lines 8-13).  The optional `iterations`
and `error` fields are `none` when absent. -/
structure SolverResult where
  roots : List F
  method : Method
  iterations : Option ℕ
  error : Option String
deriving DecidableEq, Repr

/-- Evaluating a compiled expression at `{ x }`, the only scope the solver
builds. -/
def compiledFun (cp : CompiledExpression) (x : F) : F :=
  evaluateCompiled cp [("x", x)]

/-- Stable insertion step for `Array.prototype.sort((a, b) => a - b)`:
`x` (arriving after the elements already placed) goes before the first
element `y` it must strictly precede, i.e. with `x - y < 0`; if the
comparator returns `0` or `NaN` the original relative order is kept. -/
def sortInsert (x : F) : List F → List F
  | [] => [x]
  | y :: ys => if F.lt (F.sub x y) F.zero then x :: y :: ys else y :: sortInsert x ys

/-- The call `roots.sort((a, b) => a - b)`: a stable comparator sort, modelled as
left-to-right stable insertion. -/
def jsSortAsc (l : List F) : List F :=
  l.foldl (fun acc x => sortInsert x acc) []

/-- Modelled from the spec: the external nerdamer capability used by
`solveSymbolic`.  `available` is whether the lazy load succeeded;
`solveRaw expr variable` is `n.solve(expr, variable)` (which may throw),
returning the solution list in iteration order; each solution carries the
outcome of `parseFloat(n(sol).evaluate().text('decimals'))` — an inner throw
(caught and skipped per-solution) or the parsed float. -/
structure NerdamerBackend where
  available : Bool
  solveRaw : String → String → Except String (List (Except String F))

/-- The per-solution root collection of `solveSymbolic` (lines 62-75): skip
solutions that threw, keep finite values not already present (push order). -/
def collectRoots (sols : List (Except String F)) : List F :=
  sols.foldl
    (fun acc sol =>
      match sol with
      | .error _ => acc
      | .ok num => if num.isFinite && !acc.contains num then acc ++ [num] else acc)
    []

/-- The symbolic path, `solveSymbolic` (SolverEngine.ts lines 40-88).  The source calls the
second parameter `variable`, a reserved word in Lean, hence `varName`. -/
def solveSymbolic (N : NerdamerBackend) (equation : String) (varName : String) : SolverResult :=
  if !N.available then
    { roots := [], method := .symbolic, iterations := none,
      error := some "Symbolic solver not available" }
  else
    let expr := zeroForm equation
    match N.solveRaw expr varName with
    | .error e => { roots := [], method := .symbolic, iterations := none, error := some e }
    | .ok sols =>
        { roots := jsSortAsc (collectRoots sols), method := .symbolic,
          iterations := none, error := none }

/-- The step `h = 1e-8` of the central-difference derivative. -/
def hStep : F := F.fin (1 / 100000000)

/-- The central-difference numerical derivative of `newtonRaphson`
(lines 119-122): `(f(x+h) - f(x-h)) / (2h)`. -/
def centralDiff (f : F → F) (x : F) : F :=
  F.div (F.sub (f (F.add x hStep)) (f (F.sub x hStep))) (F.mul (F.fin 2) hStep)

/-- The loop of `newtonRaphson` (lines 106-129).  `fuel` is the remaining
iteration budget, `i` the current loop index, `iterations` the value of the
mutable `iterations` variable on entry (last value assigned), `x` the
current iterate. -/
def newtonLoop (f : F → F) (tol : F) : ℕ → ℕ → ℕ → F → SolverResult
  | 0, _, iterations, _ =>
      { roots := [], method := .newton, iterations := some iterations,
        error := some "Did not converge" }
  | fuel + 1, i, iterations, x =>
      let fx := f x
      if !fx.isFinite then
        { roots := [], method := .newton, iterations := some iterations,
          error := some "Did not converge" }
      else if F.lt (F.abs fx) tol then
        { roots := [roundToSignificant x 10], method := .newton,
          iterations := some (i + 1), error := none }
      else
        let dfx := centralDiff f x
        if F.lt (F.abs dfx) (F.mul tol (F.fin (1 / 100))) then
          { roots := [], method := .newton, iterations := some iterations,
            error := some "Did not converge" }
        else newtonLoop f tol fuel (i + 1) (i + 1) (F.sub x (F.div fx dfx))

/-- Newton's method, `newtonRaphson` (SolverEngine.ts lines 93-144).  A throw from `compile`
is caught and reported in the error field. -/
def newtonRaphson (mc : MathCompile) (expression : String) (initialGuess tol : F)
    (maxIterations : ℕ) : SolverResult :=
  match compile mc expression with
  | .error e => { roots := [], method := .newton, iterations := none, error := some e }
  | .ok cp => newtonLoop (compiledFun cp) tol maxIterations 0 0 initialGuess

/-- The loop of `bisection` (lines 174-200).  `fuel` is the remaining
iteration budget and `iter` the value of the mutable `iterations` variable
on entry; the state is the interval `[left, right]` with the cached endpoint
values `fa`, `fb`. -/
def bisectionLoop (f : F → F) (tol : F) : ℕ → ℕ → F → F → F → F → SolverResult
  | 0, iter, left, right, _, _ =>
      { roots := [roundToSignificant (F.div (F.add left right) (F.fin 2)) 10],
        method := .bisection, iterations := some iter, error := none }
  | fuel + 1, iter, left, right, fa, fb =>
      let mid := F.div (F.add left right) (F.fin 2)
      let fm := f mid
      if F.lt (F.abs fm) tol || F.lt (F.div (F.sub right left) (F.fin 2)) tol then
        { roots := [roundToSignificant mid 10], method := .bisection,
          iterations := some (iter + 1), error := none }
      else if F.lt (F.mul fa fm) F.zero then
        bisectionLoop f tol fuel (iter + 1) left mid fa fm
      else
        bisectionLoop f tol fuel (iter + 1) mid right fm fb

/-- The bisection method, `bisection` (SolverEngine.ts lines 149-208). -/
def bisection (mc : MathCompile) (expression : String) (a b tol : F)
    (maxIterations : ℕ) : SolverResult :=
  match compile mc expression with
  | .error e => { roots := [], method := .bisection, iterations := none, error := some e }
  | .ok cp =>
      let f := compiledFun cp
      let fa := f a
      let fb := f b
      if F.gt (F.mul fa fb) F.zero then
        { roots := [], method := .bisection, iterations := none,
          error := some "No sign change in interval" }
      else bisectionLoop f tol maxIterations 0 a b fa fb

/-- The scan loop of `findAllRoots` (lines 229-255).  `k` is the number of
remaining samples, `i` the current sample index, `prevX`/`prevFx` the
previous sample and its value, `roots` the accumulator. -/
def scanLoop (mc : MathCompile) (expression : String) (f : F → F)
    (rangeStart tol step : F) : ℕ → ℕ → F → F → List F → List F
  | 0, _, _, _, roots => roots
  | k + 1, i, prevX, prevFx, roots =>
      let x := F.add rangeStart (F.mul (F.fin (i : ℚ)) step)
      let fx := f x
      let roots1 :=
        if prevFx.isFinite && fx.isFinite && F.lt (F.mul prevFx fx) F.zero then
          match (bisection mc expression prevX x tol 100).roots with
          | [] => roots
          | root :: _ =>
              if roots.any (fun r => F.lt (F.abs (F.sub r root)) (F.mul tol (F.fin 100))) then
                roots
              else roots ++ [root]
        else roots
      let roots2 :=
        if F.lt (F.abs fx) tol then
          if roots1.any (fun r => F.lt (F.abs (F.sub r x)) (F.mul tol (F.fin 100))) then roots1
          else roots1 ++ [roundToSignificant x 10]
        else roots1
      scanLoop mc expression f rangeStart tol step k (i + 1) x fx roots2

/-- The interval scan, `findAllRoots` (SolverEngine.ts lines 213-268).  The nested `bisection`
call recompiles the same expression through the same mathjs instance, which
is deterministic, so it receives the same `mc`. -/
def findAllRoots (mc : MathCompile) (expression : String) (rangeStart rangeEnd tol : F)
    (scanResolution : ℕ) : SolverResult :=
  match compile mc expression with
  | .error e => { roots := [], method := .combined, iterations := none, error := some e }
  | .ok cp =>
      let f := compiledFun cp
      let step := F.div (F.sub rangeEnd rangeStart) (F.fin (scanResolution : ℚ))
      let roots :=
        scanLoop mc expression f rangeStart tol step scanResolution 1 rangeStart (f rangeStart) []
      { roots := jsSortAsc roots, method := .combined, iterations := none, error := none }

/-- The options record of `solve`, with its defaults
`{ rangeStart = -100, rangeEnd = 100, tolerance = 1e-10 }`. -/
structure SolveOptions where
  rangeStart : F := F.fin (-100)
  rangeEnd : F := F.fin 100
  tolerance : F := F.fin (1 / 10000000000)

/-- The orchestrator, `solve` (SolverEngine.ts lines 273-305): normalize to zero-form, try the
symbolic adapter (always with variable `x`), return its result when it found
at least one root, otherwise fall back to `findAllRoots` over the configured
range with the default scan resolution 100. -/
def solve (N : NerdamerBackend) (mc : MathCompile) (equation : String)
    (options : SolveOptions) : SolverResult :=
  let expression := zeroForm equation
  let symbolicResult := solveSymbolic N equation "x"
  if symbolicResult.roots.length > 0 then symbolicResult
  else findAllRoots mc expression options.rangeStart options.rangeEnd options.tolerance 100

/-! ## Characterizations used to state the claims

These definitions re-express the traces of the loops above so that theorems
can speak about "the final interval" or "the iterate at which Newton's
method succeeds".  They are stated over the same embedded operations. -/

/-- One bisection refinement step on the state `(left, right, fa, fb)`,
exactly as the loop updates it when it does not return. -/
def bisectStep (f : F → F) (s : F × F × F × F) : F × F × F × F :=
  let mid := F.div (F.add s.1 s.2.1) (F.fin 2)
  let fm := f mid
  if F.lt (F.mul s.2.2.1 fm) F.zero then (s.1, mid, s.2.2.1, fm)
  else (mid, s.2.1, fm, s.2.2.2)

/-- The midpoint `(left + right) / 2` of a bisection state. -/
def stateMid (s : F × F × F × F) : F := F.div (F.add s.1 s.2.1) (F.fin 2)

/-- Whether the loop's convergence test fires on this state:
`|f(mid)| < tolerance || (right - left) / 2 < tolerance`. -/
def bisectConvergedAt (f : F → F) (tol : F) (s : F × F × F × F) : Bool :=
  F.lt (F.abs (f (stateMid s))) tol || F.lt (F.div (F.sub s.2.1 s.1) (F.fin 2)) tol

/-- The Newton iterate sequence: `x₀` is the initial guess and
`xᵢ₊₁ = xᵢ - f(xᵢ) / f'(xᵢ)` with the central-difference derivative. -/
def nIter (f : F → F) (guess : F) : ℕ → F
  | 0 => guess
  | i + 1 =>
      let x := nIter f guess i
      F.sub x (F.div (f x) (centralDiff f x))

/-- The Newton loop passes iterate `x` without returning: `f(x)` is finite,
`|f(x)|` is not below tolerance, and the derivative is not flat. -/
def newtonOk (f : F → F) (tol x : F) : Bool :=
  (f x).isFinite && !F.lt (F.abs (f x)) tol
    && !F.lt (F.abs (centralDiff f x)) (F.mul tol (F.fin (1 / 100)))

/-- Newton's method succeeds exactly at step `i`: the loop passes iterates
`0, …, i-1` and `|f(xᵢ)| < tolerance`. -/
def newtonSuccessAt (f : F → F) (guess tol : F) (i : ℕ) : Bool :=
  ((List.range i).all fun j => newtonOk f tol (nIter f guess j))
    && F.lt (F.abs (f (nIter f guess i))) tol

/-- Two root values are acceptable together: their distance is not below
`tolerance × 100` (the deduplication invariant of `findAllRoots`). -/
def DistOk (tol a b : F) : Prop :=
  F.lt (F.abs (F.sub a b)) (F.mul tol (F.fin 100)) = false

/-! ## Concrete backend instances used by witnesses and counterexamples -/

/-- A compiled expression behaving like the identity, e.g. mathjs-compiled
`"x"`: evaluating at scope `{ x }` returns `x` (and `NaN` without a
binding, as an unbound variable fails evaluation). -/
def cpId : CompiledExpression :=
  ⟨fun s => .ok (.num ((s.lookup "x").getD F.nan))⟩

/-- A compiled expression behaving like mathjs-compiled `"x + 4"`. -/
def cpPlus4 : CompiledExpression :=
  ⟨fun s => .ok (.num (F.add ((s.lookup "x").getD F.nan) (F.fin 4)))⟩

/-- A compiled expression that always evaluates to `NaN`, e.g. mathjs-compiled
`"0 / 0"`. -/
def cpNan : CompiledExpression := ⟨fun _ => .ok (.num F.nan)⟩

/-- A mathjs compile step that always succeeds with the given compiled
expression. -/
def mcOf (cp : CompiledExpression) : MathCompile := fun _ => .ok cp

/-- A mathjs compile step that always throws a parse error. -/
def mcFail : MathCompile := fun _ => .error "Unexpected end of expression"

/-- A nerdamer backend that failed to load (server-side rendering). -/
def nerdUnavailable : NerdamerBackend := ⟨false, fun _ _ => .error "not loaded"⟩

/-- A nerdamer backend returning the single exact root `x = 2`. -/
def nerdRootTwo : NerdamerBackend := ⟨true, fun _ _ => .ok [.ok (F.fin 2)]⟩

/-- A compiled expression behaving like mathjs-compiled `"0"`: constantly
zero. -/
def cpZero : CompiledExpression := ⟨fun _ => .ok (.num (F.fin 0))⟩

/-- A compiled expression whose evaluation always throws, e.g. mathjs-compiled
`"y"` evaluated in a scope that binds only `x` (unbound variable). -/
def cpThrow : CompiledExpression := ⟨fun _ => .error "Undefined symbol y"⟩

/-- A mathjs backend whose `math.evaluate` always throws a parse error. -/
def mbFail : MathBackend :=
  ⟨fun _ _ => .error "Unexpected end of expression", fun _ => .ok "", fun _ => false⟩

/-- The defaulted options record `{}` of a plain `solve(equation)` call. -/
def defaultOptions : SolveOptions := {}

/-! ## Helper lemmas about `F` -/

theorem F.mul_nan_left (x : F) : F.mul F.nan x = F.nan := by
  cases x <;> rfl

theorem F.mul_nan_right (x : F) : F.mul x F.nan = F.nan := by
  cases x <;> rfl

theorem F.le_gt_false (a b : F) (h : F.le a b = true) : F.gt a b = false := by
  cases a <;> cases b <;> simp_all [F.le, F.gt, F.lt]

theorem F.lt_abs_finite (x tol : F) (h : F.lt (F.abs x) tol = true) :
    x.isFinite = true := by
  cases x <;> cases tol <;> simp_all [F.lt, F.abs, F.isFinite]

/-! ## Claim theorems -/

/-- C2 (code bug evidence): `preprocessExpression` is not idempotent.  On the
input `"3!2"` the factorial rewrite runs after the implicit-multiplication
insertions, so the first pass produces `"factorial(3)2"` — itself
non-canonical — and a second pass inserts the multiplication sign the first
pass was supposed to add, yielding `"factorial(3)*2"`. -/
theorem preprocess_not_idempotent :
    preprocessExpression "3!2" = "factorial(3)2" ∧
    preprocessExpression (preprocessExpression "3!2") = "factorial(3)*2" ∧
    preprocessExpression (preprocessExpression "3!2") ≠ preprocessExpression "3!2" := by
  refine ⟨rfl, rfl, ?_⟩
  decide

/-- C7: `evaluateCompiled` never throws — it is a total function into `F` —
and on any internal evaluation failure (a throw from `compiled.evaluate`, or
a throw from the `math.number` conversion of a non-number result) it returns
`NaN`; otherwise it returns the numeric value of the evaluation. -/
theorem evaluateCompiled_spec (cp : CompiledExpression) (s : Scope) :
    (∀ e, cp.evaluate s = .error e → evaluateCompiled cp s = F.nan) ∧
    (∀ conv e, cp.evaluate s = .ok (.nonnum conv) → conv = .error e →
      evaluateCompiled cp s = F.nan) ∧
    (∀ x, cp.evaluate s = .ok (.num x) → evaluateCompiled cp s = x) ∧
    (∀ conv x, cp.evaluate s = .ok (.nonnum conv) → conv = .ok x →
      evaluateCompiled cp s = x) := by
  refine ⟨?_, ?_, ?_, ?_⟩ <;> intros <;> simp_all [evaluateCompiled]

/-- Witness for C7 at a concrete failing evaluation. -/
theorem evaluateCompiled_spec_witness :
    cpThrow.evaluate [] = .error "Undefined symbol y" ∧
    evaluateCompiled cpThrow [] = F.nan :=
  ⟨rfl, (evaluateCompiled_spec cpThrow []).1 "Undefined symbol y" rfl⟩

/-- C8: `evaluate` never propagates an exception (it is total, every throw
inside the `try` block is reified as the `error` field), and whenever the
result's `error` field is set, the display value is the sentinel `"Error"`
and the numeric value is `NaN`. -/
theorem evaluate_error_invariant (B : MathBackend) (expression : String) (scope : Scope) :
    ∀ e, (evaluate B expression scope).error = some e →
      (evaluate B expression scope).value = "Error" ∧
      (evaluate B expression scope).numericValue = F.nan := by
  intro e h
  cases hA : B.evalRaw (preprocessExpression expression) scope with
  | error e1 => simp [evaluate, hA]
  | ok r =>
      cases hB : B.fmtRaw r with
      | error e2 => simp [evaluate, hA, hB]
      | ok s' =>
          cases hC : numValue r with
          | error e3 => simp [evaluate, hA, hB, hC]
          | ok n => simp [evaluate, hA, hB, hC] at h

/-- Witness for C8 at a concrete failing evaluation. -/
theorem evaluate_error_invariant_witness :
    (evaluate mbFail "1 +" []).error = some "Unexpected end of expression" ∧
    (evaluate mbFail "1 +" []).value = "Error" ∧
    (evaluate mbFail "1 +" []).numericValue = F.nan :=
  ⟨rfl, (evaluate_error_invariant mbFail "1 +" [] "Unexpected end of expression" rfl).1,
    (evaluate_error_invariant mbFail "1 +" [] "Unexpected end of expression" rfl).2⟩

/-- Every run of the bisection loop returns a single rounded-midpoint root,
no error, method `bisection`, and an iteration count between the entry count
and the entry count plus the remaining budget. -/
theorem bisectionLoop_props (f : F → F) (tol : F) :
    ∀ (fuel iter : ℕ) (l r fa fb : F),
      ∃ m n, bisectionLoop f tol fuel iter l r fa fb =
          { roots := [roundToSignificant m 10], method := .bisection,
            iterations := some n, error := none } ∧ iter ≤ n ∧ n ≤ iter + fuel := by
  intro fuel
  induction fuel with
  | zero =>
      intro iter l r fa fb
      exact ⟨_, iter, rfl, Nat.le_refl _, by omega⟩
  | succ k ih =>
      intro iter l r fa fb
      simp only [bisectionLoop]
      split
      · exact ⟨_, iter + 1, rfl, by omega, by omega⟩
      · split
        · obtain ⟨m, n, heq, h1, h2⟩ := ih (iter + 1) l _ fa _
          exact ⟨m, n, heq, by omega, by omega⟩
        · obtain ⟨m, n, heq, h1, h2⟩ := ih (iter + 1) _ r _ fb
          exact ⟨m, n, heq, by omega, by omega⟩

/-- If the convergence test never fires within the budget, the bisection loop
returns the rounded midpoint of the final interval, with iteration count
equal to the full budget and no error. -/
theorem bisectionLoop_no_converge (f : F → F) (tol : F) :
    ∀ (fuel iter : ℕ) (l r fa fb : F),
      (∀ k, k < fuel → bisectConvergedAt f tol ((bisectStep f)^[k] (l, r, fa, fb)) = false) →
      bisectionLoop f tol fuel iter l r fa fb =
        { roots := [roundToSignificant (stateMid ((bisectStep f)^[fuel] (l, r, fa, fb))) 10],
          method := .bisection, iterations := some (iter + fuel), error := none } := by
  intro fuel
  induction fuel with
  | zero =>
      intro iter l r fa fb _
      simp [bisectionLoop, stateMid]
  | succ k ih =>
      intro iter l r fa fb h
      have h0 : bisectConvergedAt f tol (l, r, fa, fb) = false := by
        simpa using h 0 (Nat.succ_pos k)
      have hcond : (F.lt (F.abs (f (F.div (F.add l r) (F.fin 2)))) tol
          || F.lt (F.div (F.sub r l) (F.fin 2)) tol) = false := by
        simpa [bisectConvergedAt, stateMid] using h0
      have hrest : ∀ j, j < k →
          bisectConvergedAt f tol ((bisectStep f)^[j] (bisectStep f (l, r, fa, fb))) = false := by
        intro j hj
        have := h (j + 1) (by omega)
        rwa [Function.iterate_succ_apply] at this
      simp only [bisectionLoop]
      rw [Bool.or_eq_false_iff] at hcond
      rw [if_neg (by simp [hcond.1, hcond.2])]
      by_cases hsgn : F.lt (F.mul fa (f (F.div (F.add l r) (F.fin 2)))) F.zero = true
      · rw [if_pos hsgn]
        have hstep : bisectStep f (l, r, fa, fb) = (l, F.div (F.add l r) (F.fin 2), fa,
            f (F.div (F.add l r) (F.fin 2))) := by
          simp [bisectStep, hsgn]
        rw [show iter + (k + 1) = (iter + 1) + k by omega, Function.iterate_succ_apply, hstep]
        rw [hstep] at hrest
        exact ih (iter + 1) _ _ _ _ hrest
      · rw [if_neg hsgn]
        have hstep : bisectStep f (l, r, fa, fb) = (F.div (F.add l r) (F.fin 2), r,
            f (F.div (F.add l r) (F.fin 2)), fb) := by
          simp [bisectStep, hsgn]
        rw [show iter + (k + 1) = (iter + 1) + k by omega, Function.iterate_succ_apply, hstep]
        rw [hstep] at hrest
        exact ih (iter + 1) _ _ _ _ hrest

/-- C4: when the two endpoint evaluations have a strictly positive product
(in particular both finite, nonzero, same sign — but also `NaN`-free, since
any comparison with `NaN` is false), `bisection` returns immediately: empty
roots, the `'No sign change in interval'` precondition error, and no
iterations performed (`iterations` absent). -/
theorem bisection_no_sign_change (mc : MathCompile) (expression : String)
    (a b tol : F) (maxIterations : ℕ) (cp : CompiledExpression)
    (hc : compile mc expression = .ok cp)
    (h : F.gt (F.mul (compiledFun cp a) (compiledFun cp b)) F.zero = true) :
    bisection mc expression a b tol maxIterations =
      { roots := [], method := .bisection, iterations := none,
        error := some "No sign change in interval" } := by
  simp only [bisection, hc]
  rw [if_pos h]

/-- Witness for C4: `f(x) = x` on `[1, 2]`, where `f(1)·f(2) = 2 > 0`. -/
theorem bisection_no_sign_change_witness :
    F.gt (F.mul (compiledFun cpId (F.fin 1)) (compiledFun cpId (F.fin 2))) F.zero = true ∧
    bisection (mcOf cpId) "x" (F.fin 1) (F.fin 2) (F.fin 1) 3 =
      { roots := [], method := .bisection, iterations := none,
        error := some "No sign change in interval" } :=
  ⟨by with_unfolding_all rfl,
    bisection_no_sign_change (mcOf cpId) "x" (F.fin 1) (F.fin 2) (F.fin 1) 3 cpId rfl
      (by with_unfolding_all rfl)⟩

/-- C5: when `f(a)·f(b) ≤ 0` (and the expression compiles), `bisection`
terminates after at most `maxIterations` loop iterations, never reports an
error, and always returns a single rounded root; moreover if the convergence
test (`|f(mid)| < tolerance` or half-width `< tolerance`) never fires within
the budget, the returned root is the midpoint of the final interval, rounded
to 10 significant figures, with no error. -/
theorem bisection_terminates (mc : MathCompile) (expression : String)
    (a b tol : F) (maxIterations : ℕ) (cp : CompiledExpression)
    (hc : compile mc expression = .ok cp)
    (hsign : F.le (F.mul (compiledFun cp a) (compiledFun cp b)) F.zero = true) :
    (∃ n, (bisection mc expression a b tol maxIterations).iterations = some n ∧
        n ≤ maxIterations) ∧
    (bisection mc expression a b tol maxIterations).error = none ∧
    (∃ m, (bisection mc expression a b tol maxIterations).roots =
        [roundToSignificant m 10]) ∧
    ((∀ k, k < maxIterations →
        bisectConvergedAt (compiledFun cp) tol
          ((bisectStep (compiledFun cp))^[k]
            (a, b, compiledFun cp a, compiledFun cp b)) = false) →
      bisection mc expression a b tol maxIterations =
        { roots := [roundToSignificant
            (stateMid ((bisectStep (compiledFun cp))^[maxIterations]
              (a, b, compiledFun cp a, compiledFun cp b))) 10],
          method := .bisection, iterations := some maxIterations, error := none }) := by
  have hng := F.le_gt_false _ _ hsign
  have hb : bisection mc expression a b tol maxIterations =
      bisectionLoop (compiledFun cp) tol maxIterations 0 a b
        (compiledFun cp a) (compiledFun cp b) := by
    simp only [bisection, hc]
    rw [if_neg (by simp [hng])]
  refine ⟨?_, ?_, ?_, ?_⟩
  · obtain ⟨m, n, heq, _, h2⟩ := bisectionLoop_props (compiledFun cp) tol maxIterations 0 a b
      (compiledFun cp a) (compiledFun cp b)
    exact ⟨n, by rw [hb, heq], by omega⟩
  · obtain ⟨m, n, heq, _, _⟩ := bisectionLoop_props (compiledFun cp) tol maxIterations 0 a b
      (compiledFun cp a) (compiledFun cp b)
    rw [hb, heq]
  · obtain ⟨m, n, heq, _, _⟩ := bisectionLoop_props (compiledFun cp) tol maxIterations 0 a b
      (compiledFun cp a) (compiledFun cp b)
    exact ⟨m, by rw [hb, heq]⟩
  · intro hnc
    rw [hb, bisectionLoop_no_converge (compiledFun cp) tol maxIterations 0 a b
      (compiledFun cp a) (compiledFun cp b) hnc]
    simp

/-- Witness for C5: `f(x) = x + 4` on `[-10, 0]` with tolerance `1/1000` and
a single allowed iteration, which does not converge; the result is the
rounded midpoint `-5/2` of the final interval `[-5, 0]`. -/
theorem bisection_terminates_witness :
    F.le (F.mul (compiledFun cpPlus4 (F.fin (-10))) (compiledFun cpPlus4 (F.fin 0)))
        F.zero = true ∧
    (∀ k, k < 1 →
      bisectConvergedAt (compiledFun cpPlus4) (F.fin (1 / 1000))
        ((bisectStep (compiledFun cpPlus4))^[k]
          (F.fin (-10), F.fin 0, compiledFun cpPlus4 (F.fin (-10)),
            compiledFun cpPlus4 (F.fin 0))) = false) ∧
    bisection (mcOf cpPlus4) "x + 4" (F.fin (-10)) (F.fin 0) (F.fin (1 / 1000)) 1 =
      { roots := [F.fin (-5 / 2)], method := .bisection, iterations := some 1,
        error := none } := by
  refine ⟨by with_unfolding_all rfl, ?_, ?_⟩
  · intro k hk
    interval_cases k
    with_unfolding_all rfl
  · have h := (bisection_terminates (mcOf cpPlus4) "x + 4" (F.fin (-10)) (F.fin 0)
      (F.fin (1 / 1000)) 1 cpPlus4 rfl (by with_unfolding_all rfl)).2.2.2
      (by intro k hk; interval_cases k; with_unfolding_all rfl)
    rw [h]
    with_unfolding_all rfl

/-- C10: if either endpoint evaluation is `NaN`, the product test
`f(a) * f(b) > 0` is false (every comparison with `NaN` is false), so
`bisection` never returns the `'No sign change in interval'` precondition
error: it proceeds into the bisection loop and returns a midpoint-based
result — a single rounded root with no error. -/
theorem bisection_nan_endpoint (mc : MathCompile) (expression : String)
    (a b tol : F) (maxIterations : ℕ) (cp : CompiledExpression)
    (hc : compile mc expression = .ok cp)
    (h : compiledFun cp a = F.nan ∨ compiledFun cp b = F.nan) :
    bisection mc expression a b tol maxIterations =
      bisectionLoop (compiledFun cp) tol maxIterations 0 a b
        (compiledFun cp a) (compiledFun cp b) ∧
    (bisection mc expression a b tol maxIterations).error = none ∧
    (∃ m, (bisection mc expression a b tol maxIterations).roots =
        [roundToSignificant m 10]) := by
  have hng : F.gt (F.mul (compiledFun cp a) (compiledFun cp b)) F.zero = false := by
    rcases h with h | h <;> rw [h]
    · rw [F.mul_nan_left]
      rfl
    · rw [F.mul_nan_right]
      rfl
  have hb : bisection mc expression a b tol maxIterations =
      bisectionLoop (compiledFun cp) tol maxIterations 0 a b
        (compiledFun cp a) (compiledFun cp b) := by
    simp only [bisection, hc]
    rw [if_neg (by simp [hng])]
  obtain ⟨m, n, heq, _, _⟩ := bisectionLoop_props (compiledFun cp) tol maxIterations 0 a b
    (compiledFun cp a) (compiledFun cp b)
  exact ⟨hb, by rw [hb, heq], ⟨m, by rw [hb, heq]⟩⟩

/-- Witness for C10: the constant-`NaN` expression `0/0` on `[0, 1]`. -/
theorem bisection_nan_endpoint_witness :
    compiledFun cpNan (F.fin 0) = F.nan ∧
    (bisection (mcOf cpNan) "0 / 0" (F.fin 0) (F.fin 1) (F.fin (1 / 100)) 1).error = none ∧
    (bisection (mcOf cpNan) "0 / 0" (F.fin 0) (F.fin 1) (F.fin (1 / 100)) 1).roots =
      [F.fin (3 / 4)] := by
  refine ⟨rfl, ?_, by with_unfolding_all rfl⟩
  exact (bisection_nan_endpoint (mcOf cpNan) "0 / 0" (F.fin 0) (F.fin 1) (F.fin (1 / 100)) 1
    cpNan rfl (Or.inl rfl)).2.1

/-- The function `solveSymbolic` always tags its result with method `symbolic`. -/
theorem solveSymbolic_method (N : NerdamerBackend) (equation varName : String) :
    (solveSymbolic N equation varName).method = .symbolic := by
  simp only [solveSymbolic]
  split
  · rfl
  · split <;> rfl

/-- The function `findAllRoots` always tags its result with method `combined`. -/
theorem findAllRoots_method (mc : MathCompile) (e : String) (rs re tol : F) (n : ℕ) :
    (findAllRoots mc e rs re tol n).method = .combined := by
  rcases hcc : compile mc e with e' | cp <;> simp [findAllRoots, hcc]

/-- C1: `solve` first performs the symbolic attempt; if it produced at least
one root that result is returned exactly as-is (and it carries method
`symbolic`), otherwise `solve` returns the result of `findAllRoots` over
`[rangeStart, rangeEnd]` with the given tolerance (and the default scan
resolution 100), which carries method `combined`. -/
theorem solve_orchestration (N : NerdamerBackend) (mc : MathCompile)
    (equation : String) (options : SolveOptions) :
    (solveSymbolic N equation "x").method = .symbolic ∧
    (findAllRoots mc (zeroForm equation) options.rangeStart options.rangeEnd
        options.tolerance 100).method = .combined ∧
    ((solveSymbolic N equation "x").roots ≠ [] →
      solve N mc equation options = solveSymbolic N equation "x") ∧
    ((solveSymbolic N equation "x").roots = [] →
      solve N mc equation options =
        findAllRoots mc (zeroForm equation) options.rangeStart options.rangeEnd
          options.tolerance 100) := by
  refine ⟨solveSymbolic_method N equation "x", findAllRoots_method mc _ _ _ _ _, ?_, ?_⟩
  · intro h
    simp only [solve]
    rw [if_pos (List.length_pos.mpr h)]
  · intro h
    simp only [solve]
    rw [if_neg (by simp [h])]

/-- Witness for C1, both branches: a backend with the symbolic root `x = 2`
(whose result is returned as-is) and the unavailable backend (where `solve`
falls back to `findAllRoots`). -/
theorem solve_orchestration_witness :
    (solveSymbolic nerdRootTwo "x = 2" "x").roots = [F.fin 2] ∧
    solve nerdRootTwo mcFail "x = 2" defaultOptions = solveSymbolic nerdRootTwo "x = 2" "x" ∧
    (solveSymbolic nerdUnavailable "x = 2" "x").roots = [] ∧
    solve nerdUnavailable (mcOf cpId) "x = 2" defaultOptions =
      findAllRoots (mcOf cpId) (zeroForm "x = 2") defaultOptions.rangeStart
        defaultOptions.rangeEnd defaultOptions.tolerance 100 := by
  have h1 : (solveSymbolic nerdRootTwo "x = 2" "x").roots = [F.fin 2] := by
    with_unfolding_all rfl
  refine ⟨h1, ?_, rfl, ?_⟩
  · exact (solve_orchestration nerdRootTwo mcFail "x = 2" defaultOptions).2.2.1
      (by rw [h1]; simp)
  · exact (solve_orchestration nerdUnavailable (mcOf cpId) "x = 2" defaultOptions).2.2.2 rfl

/-- Splitting at `'='`: a segment without `'='` followed by a separator
peels off as the first part. -/
theorem splitEq_append (a rest : List Char) (ha : '=' ∉ a) :
    splitEq (a ++ '=' :: rest) = a :: splitEq rest := by
  induction a with
  | nil => simp [splitEq]
  | cons c a ih =>
      rw [List.mem_cons, not_or] at ha
      have hc : ¬(c = '=') := fun h => ha.1 h.symm
      simp [splitEq, hc, ih ha.2]

/-- With at least two separators, `zeroForm` builds the zero-equivalent
expression from the first two `'='`-separated segments only. -/
theorem zeroForm_two_eq (a b r : List Char) (ha : '=' ∉ a) (hb : '=' ∉ b) :
    zeroForm (String.mk (a ++ ('=' :: (b ++ ('=' :: r))))) =
      String.mk (('(' :: jsTrim a) ++ (')' :: ' ' :: '-' :: ' ' :: '(' :: jsTrim b) ++ [')']) := by
  unfold zeroForm
  rw [if_pos (by simp [List.contains, List.elem_iff])]
  rw [show (String.mk (a ++ ('=' :: (b ++ ('=' :: r))))).data
      = a ++ ('=' :: (b ++ ('=' :: r))) from rfl]
  rw [splitEq_append a _ ha, splitEq_append b _ hb]
  rfl

/-- The function `solveSymbolic` depends on the equation text only through its
zero-form. -/
theorem solveSymbolic_congr (N : NerdamerBackend) (e1 e2 v : String)
    (h : zeroForm e1 = zeroForm e2) : solveSymbolic N e1 v = solveSymbolic N e2 v := by
  simp only [solveSymbolic, h]

/-- The function `solve` depends on the equation text only through its zero-form. -/
theorem solve_congr (N : NerdamerBackend) (mc : MathCompile) (e1 e2 : String)
    (options : SolveOptions) (h : zeroForm e1 = zeroForm e2) :
    solve N mc e1 options = solve N mc e2 options := by
  simp only [solve, h, solveSymbolic_congr N e1 e2 "x" h]

/-- C9: with more than one `'='` in the equation, `solve` and `solveSymbolic`
build the zero-equivalent expression `(left) - (right)` from only the first
two `'='`-separated segments; everything after the second `'='` is discarded
and never affects the result. -/
theorem solve_discards_after_second_eq (N : NerdamerBackend) (mc : MathCompile)
    (options : SolveOptions) (a b r r' : List Char) (ha : '=' ∉ a) (hb : '=' ∉ b) :
    zeroForm (String.mk (a ++ ('=' :: (b ++ ('=' :: r))))) =
      String.mk (('(' :: jsTrim a) ++ (')' :: ' ' :: '-' :: ' ' :: '(' :: jsTrim b) ++ [')']) ∧
    solveSymbolic N (String.mk (a ++ ('=' :: (b ++ ('=' :: r))))) "x" =
      solveSymbolic N (String.mk (a ++ ('=' :: (b ++ ('=' :: r'))))) "x" ∧
    solve N mc (String.mk (a ++ ('=' :: (b ++ ('=' :: r))))) options =
      solve N mc (String.mk (a ++ ('=' :: (b ++ ('=' :: r'))))) options := by
  have h1 := zeroForm_two_eq a b r ha hb
  have h2 := zeroForm_two_eq a b r' ha hb
  exact ⟨h1, solveSymbolic_congr N _ _ "x" (h1.trans h2.symm),
    solve_congr N mc _ _ options (h1.trans h2.symm)⟩

/-- Witness for C9: `"x=2=junk"` behaves exactly like `"x=2="`. -/
theorem solve_discards_after_second_eq_witness :
    ('=' ∉ (['x'] : List Char)) ∧
    solve nerdUnavailable (mcOf cpId)
        (String.mk (['x'] ++ ('=' :: (['2'] ++ ('=' :: "junk".data))))) defaultOptions =
      solve nerdUnavailable (mcOf cpId)
        (String.mk (['x'] ++ ('=' :: (['2'] ++ ('=' :: ([] : List Char)))))) defaultOptions :=
  ⟨by decide,
    (solve_discards_after_second_eq nerdUnavailable (mcOf cpId) defaultOptions
      ['x'] ['2'] "junk".data [] (by decide) (by decide)).2.2⟩

/-- If the Newton loop (entered at index `i` with iterate `xᵢ`) passes all
iterates up to some `k < i + fuel` at which `|f(x_k)| < tolerance`, it
returns that iterate rounded to 10 significant figures together with the
iteration count `k + 1`. -/
theorem newtonLoop_success (f : F → F) (g tol : F) :
    ∀ (fuel i k : ℕ), i ≤ k → k < i + fuel →
      (∀ j, i ≤ j → j < k → newtonOk f tol (nIter f g j) = true) →
      F.lt (F.abs (f (nIter f g k))) tol = true →
      newtonLoop f tol fuel i i (nIter f g i) =
        { roots := [roundToSignificant (nIter f g k) 10], method := .newton,
          iterations := some (k + 1), error := none } := by
  intro fuel
  induction fuel with
  | zero =>
      intro i k h1 h2 _ _
      exact absurd h2 (by omega)
  | succ n ih =>
      intro i k h1 h2 hok hlt
      rcases eq_or_lt_of_le h1 with heq | hlt2
      · subst heq
        have hfin : (f (nIter f g i)).isFinite = true := F.lt_abs_finite _ _ hlt
        simp [newtonLoop, hfin, hlt]
      · have hoki := hok i (Nat.le_refl i) hlt2
        rw [newtonOk, Bool.and_eq_true, Bool.and_eq_true, Bool.not_eq_true',
          Bool.not_eq_true'] at hoki
        obtain ⟨⟨hfin, hnlt⟩, hnflat⟩ := hoki
        simp only [one_div] at hnflat
        simp [newtonLoop, hfin, hnlt, hnflat]
        exact ih (i + 1) k (by omega) (by omega) (fun j hj1 hj2 => hok j (by omega) hj2) hlt

/-- If no success index exists within the budget, the Newton loop returns an
empty root set with the `'Did not converge'` error. -/
theorem newtonLoop_failure (f : F → F) (g tol : F) :
    ∀ (fuel i : ℕ),
      (∀ j, j < i → newtonOk f tol (nIter f g j) = true) →
      (∀ k, i ≤ k → k < i + fuel → newtonSuccessAt f g tol k = false) →
      ∃ n, newtonLoop f tol fuel i i (nIter f g i) =
        { roots := [], method := .newton, iterations := some n,
          error := some "Did not converge" } := by
  intro fuel
  induction fuel with
  | zero => intro i _ _; exact ⟨i, rfl⟩
  | succ n ih =>
      intro i hpre hfail
      cases hfin : (f (nIter f g i)).isFinite with
      | false =>
          refine ⟨i, ?_⟩
          simp [newtonLoop, hfin]
      | true =>
          cases hlt : F.lt (F.abs (f (nIter f g i))) tol with
          | true =>
              have hall : ((List.range i).all fun j => newtonOk f tol (nIter f g j)) = true := by
                rw [List.all_eq_true]
                intro j hj
                exact hpre j (List.mem_range.mp hj)
              have hsucc : newtonSuccessAt f g tol i = true := by
                simp [newtonSuccessAt, hall, hlt]
              have hcontra := hfail i (Nat.le_refl i) (by omega)
              simp [hsucc] at hcontra
          | false =>
              cases hflat : F.lt (F.abs (centralDiff f (nIter f g i)))
                  (F.mul tol (F.fin (1 / 100))) with
              | true =>
                  refine ⟨i, ?_⟩
                  simp only [one_div] at hflat
                  simp [newtonLoop, hfin, hlt, hflat]
              | false =>
                  simp only [one_div] at hflat
                  have hoki : newtonOk f tol (nIter f g i) = true := by
                    simp [newtonOk, hfin, hlt, hflat]
                  have hgoal : newtonLoop f tol (n + 1) i i (nIter f g i)
                      = newtonLoop f tol n (i + 1) (i + 1) (nIter f g (i + 1)) := by
                    simp [newtonLoop, hfin, hlt, hflat]
                    rfl
                  rw [hgoal]
                  refine ih (i + 1) ?_ ?_
                  · intro j hj
                    rcases Nat.lt_or_ge j i with hj2 | hj2
                    · exact hpre j hj2
                    · have : j = i := by omega
                      rw [this]
                      exact hoki
                  · intro k hk1 hk2
                    exact hfail k (by omega) (by omega)

/-- C6: `newtonRaphson` returns a non-empty root set exactly when some
Newton iterate `xᵢ` (reached by the loop within `maxIterations` steps)
satisfies `|f(xᵢ)| < tolerance`; in that case the returned root is that
iterate rounded to 10 significant figures together with the iteration count
`i + 1`; otherwise (in particular when the central-difference derivative
magnitude falls below `tolerance × 0.01` or `f(x)` becomes non-finite) it
returns an empty root set with the `'Did not converge'` error. -/
theorem newtonRaphson_success_iff (mc : MathCompile) (expression : String)
    (guess tol : F) (maxIterations : ℕ) (cp : CompiledExpression)
    (hc : compile mc expression = .ok cp) :
    ((newtonRaphson mc expression guess tol maxIterations).roots ≠ [] ↔
      ∃ i, i < maxIterations ∧ newtonSuccessAt (compiledFun cp) guess tol i = true) ∧
    (∀ i, i < maxIterations → newtonSuccessAt (compiledFun cp) guess tol i = true →
      newtonRaphson mc expression guess tol maxIterations =
        { roots := [roundToSignificant (nIter (compiledFun cp) guess i) 10],
          method := .newton, iterations := some (i + 1), error := none }) ∧
    ((∀ i, i < maxIterations → newtonSuccessAt (compiledFun cp) guess tol i = false) →
      (newtonRaphson mc expression guess tol maxIterations).roots = [] ∧
      (newtonRaphson mc expression guess tol maxIterations).error =
        some "Did not converge") := by
  have hn : newtonRaphson mc expression guess tol maxIterations =
      newtonLoop (compiledFun cp) tol maxIterations 0 0
        (nIter (compiledFun cp) guess 0) := by
    simp only [newtonRaphson, hc]
    rfl
  have hsucc : ∀ i, i < maxIterations →
      newtonSuccessAt (compiledFun cp) guess tol i = true →
      newtonRaphson mc expression guess tol maxIterations =
        { roots := [roundToSignificant (nIter (compiledFun cp) guess i) 10],
          method := .newton, iterations := some (i + 1), error := none } := by
    intro i hi hs
    rw [newtonSuccessAt, Bool.and_eq_true, List.all_eq_true] at hs
    rw [hn]
    exact newtonLoop_success (compiledFun cp) guess tol maxIterations 0 i
      (Nat.zero_le i) (by omega)
      (fun j _ hj => hs.1 j (List.mem_range.mpr hj)) hs.2
  have hfailcase : (∀ i, i < maxIterations →
      newtonSuccessAt (compiledFun cp) guess tol i = false) →
      (newtonRaphson mc expression guess tol maxIterations).roots = [] ∧
      (newtonRaphson mc expression guess tol maxIterations).error =
        some "Did not converge" := by
    intro hfail
    obtain ⟨n, heq⟩ := newtonLoop_failure (compiledFun cp) guess tol maxIterations 0
      (fun j hj => absurd hj (by omega)) (fun k _ hk2 => hfail k (by omega))
    rw [hn, heq]
    exact ⟨rfl, rfl⟩
  refine ⟨⟨?_, ?_⟩, hsucc, hfailcase⟩
  · intro hne
    by_contra hnot
    push_neg at hnot
    have hfail : ∀ i, i < maxIterations →
        newtonSuccessAt (compiledFun cp) guess tol i = false := by
      intro i hi
      exact Bool.eq_false_iff.mpr (hnot i hi)
    exact hne (hfailcase hfail).1
  · rintro ⟨i, hi, hs⟩
    rw [(hsucc i hi hs)]
    simp

/-- Witness for C6: `f(x) = x` with initial guess `0` succeeds at iterate 0
and returns root `0` after one counted iteration. -/
theorem newtonRaphson_success_iff_witness :
    compile (mcOf cpId) "x" = .ok cpId ∧
    newtonSuccessAt (compiledFun cpId) (F.fin 0) (F.fin (1 / 1000)) 0 = true ∧
    newtonRaphson (mcOf cpId) "x" (F.fin 0) (F.fin (1 / 1000)) 100 =
      { roots := [F.fin 0], method := .newton, iterations := some 1, error := none } := by
  have hs : newtonSuccessAt (compiledFun cpId) (F.fin 0) (F.fin (1 / 1000)) 0 = true := by
    with_unfolding_all rfl
  refine ⟨rfl, hs, ?_⟩
  have h := (newtonRaphson_success_iff (mcOf cpId) "x" (F.fin 0) (F.fin (1 / 1000)) 100
    cpId rfl).2.1 0 (by omega) hs
  rw [h]
  with_unfolding_all rfl

/-- C3 (code bug evidence): the deduplication invariant fails.  The
exact-zero branch of `findAllRoots` guards the push by the distance of
existing roots to the *unrounded* sample `x` but pushes
`roundToSignificant(x, 10)`.  For `f ≡ 0` on `[10^12, 10^12 + 240]` with
tolerance `1` and 2 scan steps, the samples `10^12 + 120` and `10^12 + 240`
are more than `tolerance × 100 = 100` apart from everything previously
found, yet both round to the same value `10^12`, so the result contains two
identical roots at distance `0 < tolerance × 100` — and the returned list is
not even duplicate-free.  (The sortedness and `combined`-method parts of the
claim are unaffected.) -/
theorem findAllRoots_dedup_violated :
    (findAllRoots (mcOf cpZero) "0" (F.fin 1000000000000) (F.fin 1000000000240)
        (F.fin 1) 2).roots = [F.fin 1000000000000, F.fin 1000000000000] ∧
    ¬ List.Pairwise (DistOk (F.fin 1))
        (findAllRoots (mcOf cpZero) "0" (F.fin 1000000000000) (F.fin 1000000000240)
          (F.fin 1) 2).roots := by
  have h : (findAllRoots (mcOf cpZero) "0" (F.fin 1000000000000) (F.fin 1000000000240)
      (F.fin 1) 2).roots = [F.fin 1000000000000, F.fin 1000000000000] := by
    with_unfolding_all rfl
  refine ⟨h, ?_⟩
  rw [h]
  intro hp
  have h2 := (List.pairwise_cons.mp hp).1 (F.fin 1000000000000) (by simp)
  have h3 : F.lt (F.abs (F.sub (F.fin 1000000000000) (F.fin 1000000000000)))
      (F.mul (F.fin 1) (F.fin 100)) = true := by
    with_unfolding_all rfl
  rw [DistOk] at h2
  rw [h2] at h3
  exact Bool.false_ne_true h3
